import Mathlib

/-!
# youtube-websub-listener: a verification development

A shallow embedding of `main.go` (the WebSub callback handler, the `subscribe`
call, the environment helpers and the renewer loop) together with the parts
of the Go standard library the program relies on (`net/url` form encoding,
the `http.ResponseWriter` protocol, `fmt` verbs `%s` and `%d`).

Go strings are byte sequences; they are modelled as lists of bytes.
-/

namespace WebSub

/-! ## Go strings -/

/-- A byte. -/
abbrev Byte := Fin 256

/-- A Go `string` (equally a `[]byte`): a finite sequence of bytes. -/
abbrev GoString := List Byte

/-- The byte of an ASCII character (source literals are all ASCII). -/
def byteOfChar (c : Char) : Byte := ⟨c.toNat % 256, Nat.mod_lt _ (by decide)⟩

/-- A Go string literal with ASCII content. -/
def lit (s : String) : GoString := s.toList.map byteOfChar

/-- Go `error` values; `Error()` is the carried message. -/
structure GoError where
  msg : GoString
deriving DecidableEq, Repr

/-- `fmt` verb `%d` on a non-negative `int`: decimal digits, no padding. -/
def fmtNat (n : Nat) : GoString := (Nat.toDigits 10 n).map byteOfChar

/-- `fmt` verb `%d` on an `int`. -/
def fmtInt : Int → GoString
  | Int.ofNat n => fmtNat n
  | Int.negSucc n => lit "-" ++ fmtNat (n + 1)

/-! ## net/url: query escaping -/

/-- The alphanumeric test at the head of `shouldEscape`. -/
def isAlnum (c : Byte) : Bool :=
  (97 ≤ c.val && c.val ≤ 122) || (65 ≤ c.val && c.val ≤ 90) || (48 ≤ c.val && c.val ≤ 57)

/-- `shouldEscape(c, encodeQueryComponent)`: everything is escaped except
alphanumerics and the marks `-`, `_`, `.`, `~`. -/
def shouldEscape (c : Byte) : Bool :=
  if isAlnum c then false
  else if c.val = 45 ∨ c.val = 95 ∨ c.val = 46 ∨ c.val = 126 then false
  else true

/-- `upperhex[i]` for `upperhex = "0123456789ABCDEF"`. -/
def upperhex (i : Nat) : Byte :=
  if i < 10 then ⟨(48 + i) % 256, Nat.mod_lt _ (by decide)⟩
  else ⟨(55 + i) % 256, Nat.mod_lt _ (by decide)⟩

/-- `escape(s, encodeQueryComponent)`, that is `url.QueryEscape`. -/
def QueryEscape : GoString → GoString
  | [] => []
  | c :: rest =>
    if shouldEscape c then
      if c.val = 32 then (43 : Byte) :: QueryEscape rest
      else (37 : Byte) :: upperhex (c.val / 16) :: upperhex (c.val % 16) :: QueryEscape rest
    else c :: QueryEscape rest

/-- `ishex(c)`. -/
def ishex (c : Byte) : Bool :=
  (48 ≤ c.val && c.val ≤ 57) || (97 ≤ c.val && c.val ≤ 102) || (65 ≤ c.val && c.val ≤ 70)

/-- `unhex(c)`. -/
def unhex (c : Byte) : Nat :=
  if 48 ≤ c.val ∧ c.val ≤ 57 then c.val - 48
  else if 97 ≤ c.val ∧ c.val ≤ 102 then c.val - 97 + 10
  else if 65 ≤ c.val ∧ c.val ≤ 70 then c.val - 65 + 10
  else 0

/-- `unescape(s, encodeQueryComponent)`, that is `url.QueryUnescape`;
`none` is the `EscapeError` result. -/
def QueryUnescape : GoString → Option GoString
  | [] => some []
  | c :: rest =>
    if c.val = 37 then
      match rest with
      | h1 :: h2 :: rest2 =>
        if ishex h1 && ishex h2 then
          (QueryUnescape rest2).map
            (fun t => (⟨(unhex h1 * 16 + unhex h2) % 256, Nat.mod_lt _ (by decide)⟩ : Byte) :: t)
        else none
      | _ => none
    else if c.val = 43 then (QueryUnescape rest).map (fun t => (32 : Byte) :: t)
    else (QueryUnescape rest).map (fun t => c :: t)

/-! ## net/url: `Values` -/

/-- `url.Values`, a `map[string][]string`, as an association list with
distinct keys. -/
abbrev Values := List (GoString × List GoString)

/-- Map indexing `v[key]` (the nil slice when the key is absent). -/
def Values.index : Values → GoString → List GoString
  | [], _ => []
  | (k, vs) :: rest, key => if k = key then vs else Values.index rest key

/-- Map assignment `v[key] = vs`. -/
def Values.assign : Values → GoString → List GoString → Values
  | [], key, vs => [(key, vs)]
  | (k, old) :: rest, key, vs =>
    if k = key then (k, vs) :: rest else (k, old) :: Values.assign rest key vs

/-- `Values.Get`: the first value of the key, or the empty string. -/
def Values.Get (v : Values) (key : GoString) : GoString :=
  match v.index key with
  | [] => []
  | x :: _ => x

/-- `Values.Set`: replaces any existing values of the key. -/
def Values.Set (v : Values) (key value : GoString) : Values :=
  v.assign key [value]

/-- `Values.Add`, also the update `m[key] = append(m[key], value)` of
`parseQuery`. -/
def Values.Add (v : Values) (key value : GoString) : Values :=
  v.assign key (v.index key ++ [value])

/-- Go string comparison `a < b`: bytewise lexicographic. -/
def strLt : GoString → GoString → Bool
  | [], [] => false
  | [], _ :: _ => true
  | _ :: _, [] => false
  | a :: as, b :: bs => if a.val < b.val then true else if b.val < a.val then false else strLt as bs

/-- Insertion of a key into an ascending key list. -/
def insertKey (k : GoString) : List GoString → List GoString
  | [] => [k]
  | x :: xs => if strLt x k then x :: insertKey k xs else k :: x :: xs

/-- `slices.Sorted(maps.Keys(v))`: the keys in ascending order. -/
def sortedKeys (v : Values) : List GoString :=
  (v.map Prod.fst).foldr insertKey []

/-- The inner loop of `Values.Encode` over the values of one key. -/
def encodeKey (keyEscaped : GoString) : List GoString → GoString → GoString
  | [], buf => buf
  | x :: xs, buf =>
    encodeKey keyEscaped xs
      ((if buf.length > 0 then buf ++ [(38 : Byte)] else buf) ++ keyEscaped ++ [(61 : Byte)]
        ++ QueryEscape x)

/-- The outer loop of `Values.Encode` over the sorted keys. -/
def encodeKeys (v : Values) : List GoString → GoString → GoString
  | [], buf => buf
  | k :: ks, buf => encodeKeys v ks (encodeKey (QueryEscape k) (v.index k) buf)

/-- `Values.Encode`: "URL encoded" form (`bar=baz&foo=quux`) sorted by key. -/
def Values.Encode (v : Values) : GoString :=
  if v.length = 0 then [] else encodeKeys v (sortedKeys v) []

/-- `strings.Cut(s, sep)` for a one-byte separator: the text before the first
separator, the text after it, and whether it was found. -/
def cut (sep : Byte) : GoString → GoString × GoString × Bool
  | [] => ([], [], false)
  | c :: rest =>
    if c = sep then ([], rest, true)
    else
      let r := cut sep rest
      (c :: r.1, r.2.1, r.2.2)

/-- The loop of `parseQuery`; `fuel` bounds the number of iterations. The
result is the map and whether an error was recorded; `none` only when the
fuel runs out. -/
def parseQueryLoop : Nat → Values → Bool → GoString → Option (Values × Bool)
  | _, m, err, [] => some (m, err)
  | 0, _, _, _ :: _ => none
  | fuel + 1, m, err, c :: q =>
    let r := cut (38 : Byte) (c :: q)
    let key := r.1
    let query := r.2.1
    if (59 : Byte) ∈ key then parseQueryLoop fuel m true query
    else if key = [] then parseQueryLoop fuel m err query
    else
      let kv := cut (61 : Byte) key
      match QueryUnescape kv.1 with
      | none => parseQueryLoop fuel m true query
      | some k =>
        match QueryUnescape kv.2.1 with
        | none => parseQueryLoop fuel m true query
        | some value => parseQueryLoop fuel (m.Add k value) err query

/-- The constant `defaultMaxParams` of `net/url`. -/
def defaultMaxParams : Nat := 10000

/-- `urlParamsWithinMax(params)` under the default setting. -/
def urlParamsWithinMax (params : Nat) : Bool := params ≤ defaultMaxParams

/-- `url.ParseQuery`: a query of more than `defaultMaxParams` parameters
(`strings.Count(query, "&") + 1`) is refused as a whole, leaving the map empty
and reporting an error; otherwise the loop runs, and since each iteration
consumes at least one byte the length of the query is enough fuel. -/
def ParseQuery (query : GoString) : Option (Values × Bool) :=
  if urlParamsWithinMax (query.count (38 : Byte) + 1) then
    parseQueryLoop query.length [] false query
  else some ([], true)

/-! ## net/http: the response writer -/

/-- The observable state of an `http.ResponseWriter`: the header map, the
status line once written, and the body bytes written so far. -/
structure ResponseWriter where
  header : List (GoString × GoString)
  status : Option Nat
  body : GoString
deriving DecidableEq, Repr

/-- The writer a handler receives. -/
def ResponseWriter.fresh : ResponseWriter := ⟨[], none, []⟩

/-- `Header().Del(key)`. -/
def headerDel : List (GoString × GoString) → GoString → List (GoString × GoString)
  | [], _ => []
  | (k, v) :: rest, key => if k = key then headerDel rest key else (k, v) :: headerDel rest key

/-- `Header().Set(key, value)`. -/
def headerSet (h : List (GoString × GoString)) (key value : GoString) :
    List (GoString × GoString) :=
  headerDel h key ++ [(key, value)]

/-- `w.Header().Set(key, value)`; headers set after the status line is
written are not sent. -/
def ResponseWriter.SetHeader (w : ResponseWriter) (key value : GoString) : ResponseWriter :=
  match w.status with
  | none => { w with header := headerSet w.header key value }
  | some _ => w

/-- `w.Header().Del(key)`. -/
def ResponseWriter.DelHeader (w : ResponseWriter) (key : GoString) : ResponseWriter :=
  match w.status with
  | none => { w with header := headerDel w.header key }
  | some _ => w

/-- `w.WriteHeader(code)`: only the first call takes effect. -/
def ResponseWriter.WriteHeader (w : ResponseWriter) (code : Nat) : ResponseWriter :=
  match w.status with
  | none => { w with status := some code }
  | some _ => w

/-- `bodyAllowedForStatus(status)`. -/
def bodyAllowedForStatus (status : Nat) : Bool :=
  if 100 ≤ status ∧ status ≤ 199 then false
  else if status = 204 then false
  else if status = 304 then false
  else true

/-- `w.Write(data)`: an implicit `WriteHeader(200)` when no status was
written, then the bytes are appended when the status allows a body. -/
def ResponseWriter.Write (w : ResponseWriter) (data : GoString) : ResponseWriter :=
  let w1 := match w.status with
    | none => w.WriteHeader 200
    | some _ => w
  if bodyAllowedForStatus (w1.status.getD 200) then { w1 with body := w1.body ++ data } else w1

/-- `http.Error(w, error, code)`: plain-text headers, the status, then the
message followed by a newline (`fmt.Fprintln`). -/
def httpError (w : ResponseWriter) (error : GoString) (code : Nat) : ResponseWriter :=
  let w1 := w.DelHeader (lit "Content-Length")
  let w2 := w1.SetHeader (lit "Content-Type") (lit "text/plain; charset=utf-8")
  let w3 := w2.SetHeader (lit "X-Content-Type-Options") (lit "nosniff")
  let w4 := w3.WriteHeader code
  w4.Write (error ++ [(10 : Byte)])

/-- The status the server sends once the handler returns: 200 when the
handler never wrote one. -/
def ResponseWriter.sentStatus (w : ResponseWriter) : Nat := w.status.getD 200

/-! ## The `/websub` handler -/

/-- What the handler reads from an `*http.Request`. -/
structure Request where
  /-- The field `r.Method`. -/
  method : GoString
  /-- The field `r.URL.RawQuery`. -/
  rawQuery : GoString
  /-- The value of `r.Header.Get("Content-Type")`. -/
  contentType : GoString
  /-- The bytes `io.ReadAll(r.Body)` returns. -/
  body : GoString
  /-- The error `io.ReadAll(r.Body)` returns, if any. -/
  bodyErr : Option GoError
deriving DecidableEq, Repr

/-- `r.URL.Query()`: `ParseQuery(RawQuery)` with the error dropped. -/
def Request.Query (r : Request) : Values :=
  match ParseQuery r.rawQuery with
  | some (m, _) => m
  | none => []

/-- The slice expression `b[:max]`; `none` is the out-of-range run-time
panic (the bound is checked against the length, which the capacity is never
below). -/
def sliceTo (b : GoString) (max : Nat) : Option GoString :=
  if max ≤ b.length then some (b.take max) else none

/-- The bound `max` computed in the POST branch. -/
def snippetBound (body : GoString) : Nat :=
  let max := 1024
  if body.length < max then body.length else max

/-- The handler's effects: the response writer and the messages passed to
the logger, in order. -/
structure Handled where
  w : ResponseWriter
  logs : List GoString
deriving DecidableEq, Repr

/-- The function registered for `/websub`, closed over `verifyToken`.
`none` is a run-time panic. -/
def handler (verifyToken : GoString) (r : Request) : Option Handled :=
  let w := ResponseWriter.fresh
  if r.method = lit "GET" then
    let q := r.Query
    let mode := q.Get (lit "hub.mode")
    let topic := q.Get (lit "hub.topic")
    let challenge := q.Get (lit "hub.challenge")
    let lease := q.Get (lit "hub.lease_seconds")
    let vt := q.Get (lit "hub.verify_token")
    let log1 := lit "[VERIFY] mode=" ++ mode ++ lit " topic=" ++ topic ++ lit " lease_seconds="
      ++ lease ++ lit " verify_token=" ++ vt
    if vt ≠ [] ∧ vt ≠ verifyToken then
      some ⟨httpError w (lit "bad verify_token") 403, [log1]⟩
    else
      let w1 := w.SetHeader (lit "Content-Type") (lit "text/plain")
      some ⟨w1.Write challenge, [log1]⟩
  else if r.method = lit "POST" then
    let body := r.body
    let log1 := lit "[NOTIFY] content-type=" ++ r.contentType ++ lit " bytes="
      ++ fmtNat body.length
    let max := snippetBound body
    match sliceTo body max with
    | none => none
    | some snippet =>
      let log2 := lit "[NOTIFY] snippet:\n" ++ snippet
      some ⟨w.WriteHeader 204, [log1, log2]⟩
  else
    some ⟨httpError w (lit "method not allowed") 405, []⟩

/-! ## `subscribe` -/

/-- The constant `hubURL`. -/
def hubURL : GoString := lit "https://pubsubhubbub.appspot.com/"

/-- The outbound request `subscribe` builds. -/
structure OutRequest where
  method : GoString
  url : GoString
  contentType : GoString
  body : GoString
deriving DecidableEq, Repr

/-- What `http.DefaultClient.Do` followed by `io.ReadAll(resp.Body)` can
yield: a transport error, or a response with its status code, the body bytes
read and the read error if any. -/
inductive HubOutcome where
  | transportError (err : GoError)
  | response (status : Int) (body : GoString) (readErr : Option GoError)
deriving DecidableEq, Repr

/-- The form values `subscribe` sets. -/
def subscribeValues (callback topic verifyToken : GoString) : Values :=
  let values : Values := []
  let values := values.Set (lit "hub.mode") (lit "subscribe")
  let values := values.Set (lit "hub.topic") topic
  let values := values.Set (lit "hub.callback") callback
  let values := values.Set (lit "hub.verify") (lit "async")
  values.Set (lit "hub.verify_token") verifyToken

/-- The request `subscribe` hands to the HTTP client. -/
def subscribeRequest (callback topic verifyToken : GoString) : OutRequest :=
  { method := lit "POST"
    url := hubURL ++ lit "subscribe"
    contentType := lit "application/x-www-form-urlencoded"
    body := (subscribeValues callback topic verifyToken).Encode }

/-- The function `subscribe`: the client is the function `doRequest`; the
result is the returned `error` (`none` for `nil`). -/
def subscribe (doRequest : OutRequest → HubOutcome) (callback topic verifyToken : GoString) :
    Option GoError :=
  match doRequest (subscribeRequest callback topic verifyToken) with
  | HubOutcome.transportError err => some err
  | HubOutcome.response status b _ =>
    if status ≥ 300 then
      some ⟨lit "hub subscribe status " ++ fmtInt status ++ lit ": " ++ b⟩
    else none

/-! ## Environment helpers and `main` -/

/-- The process environment: `os.LookupEnv`. -/
abbrev Environ := GoString → Option GoString

/-- `os.Getenv`: the value, or the empty string when the variable is unset. -/
def Getenv (environ : Environ) (key : GoString) : GoString :=
  (environ key).getD []

/-- The function `mustEnv`; the error result is the `log.Fatalf` message,
after which the process exits. -/
def mustEnv (environ : Environ) (key : GoString) : Except GoString GoString :=
  let v := Getenv environ key
  if v = [] then Except.error (lit "missing required env " ++ key)
  else Except.ok v

/-- The function `env`. -/
def env (environ : Environ) (key dflt : GoString) : GoString :=
  let v := Getenv environ key
  if v = [] then dflt else v

/-- The effects of `main`, in program order. -/
inductive MainEvent where
  /-- A `log.Fatal` or `log.Fatalf` call: the message is logged and the process exits. -/
  | fatal (msg : GoString)
  /-- The call `http.HandleFunc(pattern, handler verifyToken)`. -/
  | handleFunc (pattern verifyToken : GoString)
  /-- The `go` statement starting the renewer. -/
  | goRenewer (callback channelID verifyToken : GoString)
  /-- A `log.Printf` call. -/
  | logf (msg : GoString)
  /-- The call `http.ListenAndServe(addr, nil)`. -/
  | listenAndServe (addr : GoString)
deriving DecidableEq, Repr

/-- The function `main`. `listenResult` is what `http.ListenAndServe` does:
`none` when it keeps serving, `some err` when it returns `err`. -/
def main (environ : Environ) (listenResult : Option GoError) : List MainEvent :=
  let port := env environ (lit "PORT") (lit "8080")
  match mustEnv environ (lit "PUBLIC_BASE_URL") with
  | Except.error msg => [MainEvent.fatal msg]
  | Except.ok publicBase =>
    match mustEnv environ (lit "YOUTUBE_CHANNEL_ID") with
    | Except.error msg => [MainEvent.fatal msg]
    | Except.ok channelID =>
      let callback := publicBase ++ lit "/websub"
      let verifyToken := env environ (lit "VERIFY_TOKEN") (lit "devtoken")
      [MainEvent.handleFunc (lit "/websub") verifyToken,
       MainEvent.goRenewer callback channelID verifyToken,
       MainEvent.logf (lit "listening on :" ++ port),
       MainEvent.listenAndServe (lit ":" ++ port)]
      ++ (match listenResult with
          | some err => [MainEvent.fatal err.msg]
          | none => [])

/-- Whether an event registers the handler or binds the listener. -/
def MainEvent.serves : MainEvent → Bool
  | MainEvent.handleFunc _ _ => true
  | MainEvent.listenAndServe _ => true
  | _ => false

/-- Whether a run of `main` ended in a fatal exit with no handler registered
and no listener bound. -/
def exitsBeforeServing (t : List MainEvent) : Bool :=
  (match t.getLast? with
   | some (MainEvent.fatal _) => true
   | _ => false) && !(t.any MainEvent.serves)

/-! ## The renewer goroutine -/

/-- The constant `time.Hour`, a `time.Duration` in nanoseconds. -/
def timeHour : Nat := 60 * (60 * (1000 * (1000 * 1000)))

/-- The effects of the renewer, in program order. -/
inductive RenewerEvent where
  /-- A call `subscribe(callback, topic, verifyToken)`. -/
  | subscribeCall (callback topic verifyToken : GoString)
  /-- A `log.Printf` call. -/
  | logf (msg : GoString)
  /-- A call `time.Sleep(d)`, `d` in nanoseconds. -/
  | sleep (d : Nat)
deriving DecidableEq, Repr

/-- The renewer between iterations: how many iterations have completed and
the effects so far. -/
structure RenewerState where
  iterations : Nat
  trace : List RenewerEvent
deriving DecidableEq, Repr

/-- The body of the renewer's `for` loop; `doRequest` is the HTTP client as it
behaves during this iteration. -/
def renewerBody (callback topic verifyToken : GoString) (doRequest : OutRequest → HubOutcome) :
    List RenewerEvent :=
  [RenewerEvent.subscribeCall callback topic verifyToken,
   (match subscribe doRequest callback topic verifyToken with
    | some err => RenewerEvent.logf (lit "subscribe error: " ++ err.msg)
    | none => RenewerEvent.logf (lit "subscribe OK for topic=" ++ topic)),
   RenewerEvent.sleep (24 * timeHour)]

/-- The topic computed before the loop. -/
def renewerTopic (channelID : GoString) : GoString :=
  lit "https://www.youtube.com/feeds/videos.xml?channel_id=" ++ channelID

/-- One iteration of the renewer's loop; `hub i` is the HTTP client during
iteration `i`. The loop has no exit, so there is always a next state. -/
def renewerStep (callback channelID verifyToken : GoString)
    (hub : Nat → OutRequest → HubOutcome) (s : RenewerState) : RenewerState :=
  { iterations := s.iterations + 1
    trace := s.trace ++
      renewerBody callback (renewerTopic channelID) verifyToken (hub s.iterations) }

/-- The renewer after `n` iterations. -/
def renewerRun (callback channelID verifyToken : GoString)
    (hub : Nat → OutRequest → HubOutcome) : Nat → RenewerState
  | 0 => ⟨0, []⟩
  | n + 1 => renewerStep callback channelID verifyToken hub
      (renewerRun callback channelID verifyToken hub n)

/-- Whether an event is a `subscribe` call. -/
def RenewerEvent.isSubscribe : RenewerEvent → Bool
  | RenewerEvent.subscribeCall _ _ _ => true
  | _ => false

/-! ## Concrete inputs used by the checks below -/

/-- The verification request of the spec's first scenario. -/
def scenarioVerify : Request :=
  { method := lit "GET"
    rawQuery := lit "hub.mode=subscribe&hub.topic=T&hub.challenge=abc123&hub.verify_token=devtoken"
    contentType := []
    body := []
    bodyErr := none }

/-- A verification request with a mismatched token. -/
def scenarioWrongToken : Request :=
  { method := lit "GET"
    rawQuery := lit "hub.mode=subscribe&hub.topic=T&hub.challenge=abc123&hub.verify_token=wrong"
    contentType := []
    body := []
    bodyErr := none }

/-- A verification request with a mismatched token whose challenge decodes
to the text `http.Error` writes for the 403 reply. -/
def scenarioCollidingChallenge : Request :=
  { method := lit "GET"
    rawQuery := lit "hub.challenge=bad+verify_token%0A&hub.verify_token=wrong"
    contentType := []
    body := []
    bodyErr := none }

/-- A notification whose body read failed part-way. -/
def scenarioNotify : Request :=
  { method := lit "POST"
    rawQuery := []
    contentType := lit "application/atom+xml"
    body := lit "<feed>...</feed>"
    bodyErr := some ⟨lit "unexpected EOF"⟩ }

/-- A request with a method the handler does not serve. -/
def scenarioDelete : Request :=
  { method := lit "DELETE"
    rawQuery := lit "hub.challenge=abc123"
    contentType := []
    body := lit "x"
    bodyErr := none }

/-- A hub that answers every request with status 302 and body `moved`. -/
def hubMoved : OutRequest → HubOutcome :=
  fun _ => HubOutcome.response 302 (lit "moved") none

/-- An environment with only the two required variables set. -/
def environRequiredOnly : Environ := fun key =>
  if key = lit "PUBLIC_BASE_URL" then some (lit "https://x.example")
  else if key = lit "YOUTUBE_CHANNEL_ID" then some (lit "UC123")
  else none

/-- An environment in which `PUBLIC_BASE_URL` is missing. -/
def environNoBase : Environ := fun key =>
  if key = lit "YOUTUBE_CHANNEL_ID" then some (lit "UC123")
  else if key = lit "PORT" then some (lit "9000")
  else none

/-- Whether an event is a log line. -/
def RenewerEvent.isLog : RenewerEvent → Bool
  | RenewerEvent.logf _ => true
  | _ => false

/-- A hub whose every call fails: transport errors on even iterations,
status 500 on odd ones. -/
def hubFailing : Nat → OutRequest → HubOutcome :=
  fun i _ =>
    if i % 2 = 0 then HubOutcome.transportError ⟨lit "dial tcp: connection refused"⟩
    else HubOutcome.response 500 (lit "oops") none

/-- The form encoding of a list of single-valued fields, in list order. -/
def encodePairs : List (GoString × GoString) → GoString
  | [] => []
  | [p] => QueryEscape p.1 ++ (61 : Byte) :: QueryEscape p.2
  | p :: q :: rest =>
    QueryEscape p.1 ++ (61 : Byte) :: QueryEscape p.2 ++ (38 : Byte) :: encodePairs (q :: rest)

/-- The form body as the interface section of the specification writes it
(`hub.mode=subscribe&hub.topic=<topic>&hub.callback=<callback>&...`):
the fields in the order mode, topic, callback, verify, verify_token with the
values inserted as given. -/
def specFormBody (callback topic verifyToken : GoString) : GoString :=
  lit "hub.mode=subscribe&hub.topic=" ++ topic ++ lit "&hub.callback=" ++ callback
    ++ lit "&hub.verify=async&hub.verify_token=" ++ verifyToken

end WebSub

namespace WebSub

/-! ## Facts about the library model -/

theorem cut_rest_length (sep : Byte) (s : GoString) :
    (cut sep s).2.1.length ≤ s.length - 1 := by
  induction s with
  | nil => simp [cut]
  | cons c rest ih =>
    unfold cut
    split
    · simp
    · simp only [List.length_cons, Nat.add_sub_cancel]
      omega

theorem parseQueryLoop_isSome (fuel : Nat) :
    ∀ (m : Values) (err : Bool) (q : GoString), q.length ≤ fuel →
      (parseQueryLoop fuel m err q).isSome = true := by
  induction fuel with
  | zero =>
    intro m err q hq
    cases q with
    | nil => simp [parseQueryLoop]
    | cons c q => simp at hq
  | succ n ih =>
    intro m err q hq
    cases q with
    | nil => simp [parseQueryLoop]
    | cons c q =>
      have hlen : (cut (38 : Byte) (c :: q)).2.1.length ≤ n := by
        have := cut_rest_length (38 : Byte) (c :: q)
        simp only [List.length_cons, Nat.add_sub_cancel] at this hq
        omega
      simp only [parseQueryLoop]
      split
      · exact ih _ _ _ hlen
      · split
        · exact ih _ _ _ hlen
        · split
          · exact ih _ _ _ hlen
          · split
            · exact ih _ _ _ hlen
            · exact ih _ _ _ hlen

/-- `ParseQuery` always returns: the fuel of the model never runs out. -/
theorem ParseQuery_isSome (query : GoString) : (ParseQuery query).isSome = true := by
  unfold ParseQuery
  split
  · exact parseQueryLoop_isSome query.length [] false query (Nat.le_refl _)
  · rfl

/-- Past the parameter limit `ParseQuery` yields the empty map and an error. -/
theorem ParseQuery_over_limit (query : GoString)
    (h : defaultMaxParams < query.count (38 : Byte) + 1) :
    ParseQuery query = some ([], true) := by
  have hno : ¬ (urlParamsWithinMax (query.count (38 : Byte) + 1) = true) := by
    simp only [urlParamsWithinMax, decide_eq_true_eq]
    omega
  unfold ParseQuery
  rw [if_neg hno]

theorem strLt_asymm (a : GoString) : ∀ b : GoString, strLt a b = true → strLt b a = false := by
  induction a with
  | nil =>
    intro b _
    cases b <;> rfl
  | cons x xs ih =>
    intro b h
    cases b with
    | nil => simp [strLt] at h
    | cons y ys =>
      simp only [strLt] at h ⊢
      by_cases h1 : x.val < y.val
      · have h2 : ¬ y.val < x.val := by omega
        simp [h1, h2]
      · by_cases h2 : y.val < x.val
        · simp [h1, h2] at h
        · simp only [if_neg h1, if_neg h2] at h ⊢
          simpa using ih ys h

theorem strLe_trans (a : GoString) :
    ∀ b c : GoString, strLt b a = false → strLt c b = false → strLt c a = false := by
  induction a with
  | nil =>
    intro b c _ _
    cases c <;> rfl
  | cons x xs ih =>
    intro b c hab hbc
    cases b with
    | nil => simp [strLt] at hab
    | cons y ys =>
      cases c with
      | nil => simp [strLt] at hbc
      | cons z zs =>
        simp only [strLt] at hab hbc ⊢
        by_cases h1 : y.val < x.val
        · simp [h1] at hab
        · by_cases h3 : z.val < y.val
          · simp [h3] at hbc
          · by_cases h2 : x.val < y.val
            · have h4 : ¬ z.val < x.val := by omega
              have h5 : x.val < z.val := by omega
              simp [h4, h5]
            · simp only [if_neg h1, if_neg h2] at hab
              by_cases h4 : y.val < z.val
              · have h5 : ¬ z.val < x.val := by omega
                have h6 : x.val < z.val := by omega
                simp [h5, h6]
              · simp only [if_neg h3, if_neg h4] at hbc
                have h5 : ¬ z.val < x.val := by omega
                have h6 : ¬ x.val < z.val := by omega
                simp only [if_neg h5, if_neg h6]
                exact ih ys zs hab hbc

theorem insertKey_perm (k : GoString) (xs : List GoString) :
    (insertKey k xs).Perm (k :: xs) := by
  induction xs with
  | nil => exact List.Perm.refl _
  | cons x xs ih =>
    unfold insertKey
    split
    · exact (List.Perm.cons x ih).trans (List.Perm.swap k x xs)
    · exact List.Perm.refl _

theorem insertKey_sorted (k : GoString) (xs : List GoString)
    (h : xs.Pairwise (fun a b => strLt b a = false)) :
    (insertKey k xs).Pairwise (fun a b => strLt b a = false) := by
  induction xs with
  | nil => simp [insertKey]
  | cons x xs ih =>
    have hx := List.pairwise_cons.mp h
    unfold insertKey
    split
    · rename_i hlt
      refine List.pairwise_cons.mpr ⟨?_, ih hx.2⟩
      intro y hy
      rcases List.mem_cons.mp ((insertKey_perm k xs).mem_iff.mp hy) with hk | hmem
      · subst hk
        exact strLt_asymm _ _ hlt
      · exact hx.1 y hmem
    · rename_i hnlt
      have hkx : strLt x k = false := by simpa using hnlt
      refine List.pairwise_cons.mpr ⟨?_, h⟩
      intro y hy
      rcases List.mem_cons.mp hy with hyx | hmem
      · subst hyx
        exact hkx
      · exact strLe_trans k x y hkx (hx.1 y hmem)

/-- The key order `Values.Encode` uses is a permutation of the map's keys in
ascending order, which is all that `slices.Sorted` guarantees. -/
theorem sortedKeys_sorted_perm (v : Values) :
    (sortedKeys v).Perm (v.map Prod.fst) ∧
    (sortedKeys v).Pairwise (fun a b => strLt b a = false) := by
  unfold sortedKeys
  induction v.map Prod.fst with
  | nil => simp
  | cons k ks ih =>
    simp only [List.foldr_cons]
    exact ⟨(insertKey_perm k _).trans (List.Perm.cons k ih.1), insertKey_sorted k _ ih.2⟩

set_option maxRecDepth 100000 in
theorem hex_roundtrip : ∀ c : Byte,
    ishex (upperhex (c.val / 16)) = true ∧ ishex (upperhex (c.val % 16)) = true ∧
    (⟨(unhex (upperhex (c.val / 16)) * 16 + unhex (upperhex (c.val % 16))) % 256,
        Nat.mod_lt _ (by decide)⟩ : Byte) = c := by
  decide

set_option maxRecDepth 100000 in
theorem unescaped_plain : ∀ c : Byte, shouldEscape c = false →
    c.val ≠ 37 ∧ c.val ≠ 43 ∧ c ≠ 38 ∧ c ≠ 59 ∧ c ≠ 61 := by
  decide

set_option maxRecDepth 100000 in
theorem upperhex_plain : ∀ c : Byte,
    (upperhex (c.val / 16) ≠ 38 ∧ upperhex (c.val / 16) ≠ 59 ∧ upperhex (c.val / 16) ≠ 61) ∧
    (upperhex (c.val % 16) ≠ 38 ∧ upperhex (c.val % 16) ≠ 59 ∧ upperhex (c.val % 16) ≠ 61) := by
  decide

theorem subscribeValues_eq (callback topic verifyToken : GoString) :
    subscribeValues callback topic verifyToken =
      [(lit "hub.mode", [lit "subscribe"]), (lit "hub.topic", [topic]),
       (lit "hub.callback", [callback]), (lit "hub.verify", [lit "async"]),
       (lit "hub.verify_token", [verifyToken])] := by
  rfl

theorem sortedKeys_subscribeValues (callback topic verifyToken : GoString) :
    sortedKeys (subscribeValues callback topic verifyToken) =
      [lit "hub.callback", lit "hub.mode", lit "hub.topic", lit "hub.verify",
       lit "hub.verify_token"] := by
  rfl

theorem encodeKey_one_nil (ke x : GoString) :
    encodeKey ke [x] [] = ke ++ [(61 : Byte)] ++ QueryEscape x := by
  simp [encodeKey]

theorem encodeKey_one (ke x buf : GoString) (h : buf ≠ []) :
    encodeKey ke [x] buf = buf ++ [(38 : Byte)] ++ ke ++ [(61 : Byte)] ++ QueryEscape x := by
  have hpos : 0 < buf.length := List.length_pos.mpr h
  simp [encodeKey, hpos]

theorem subscribe_body_eq (callback topic verifyToken : GoString) :
    (subscribeValues callback topic verifyToken).Encode =
      lit "hub.callback=" ++ QueryEscape callback ++ lit "&hub.mode=subscribe&hub.topic="
        ++ QueryEscape topic ++ lit "&hub.verify=async&hub.verify_token="
        ++ QueryEscape verifyToken := by
  have i1 : (subscribeValues callback topic verifyToken).index (lit "hub.callback")
      = [callback] := rfl
  have i2 : (subscribeValues callback topic verifyToken).index (lit "hub.mode")
      = [lit "subscribe"] := rfl
  have i3 : (subscribeValues callback topic verifyToken).index (lit "hub.topic")
      = [topic] := rfl
  have i4 : (subscribeValues callback topic verifyToken).index (lit "hub.verify")
      = [lit "async"] := rfl
  have i5 : (subscribeValues callback topic verifyToken).index (lit "hub.verify_token")
      = [verifyToken] := rfl
  have hlen : ¬ ((subscribeValues callback topic verifyToken).length = 0) := by
    rw [subscribeValues_eq]; simp
  have e1 : QueryEscape (lit "hub.callback") = lit "hub.callback" := by decide
  have e2 : QueryEscape (lit "hub.mode") = lit "hub.mode" := by decide
  have e3 : QueryEscape (lit "hub.topic") = lit "hub.topic" := by decide
  have e4 : QueryEscape (lit "hub.verify") = lit "hub.verify" := by decide
  have e5 : QueryEscape (lit "hub.verify_token") = lit "hub.verify_token" := by decide
  have e6 : QueryEscape (lit "subscribe") = lit "subscribe" := by decide
  have e7 : QueryEscape (lit "async") = lit "async" := by decide
  unfold Values.Encode
  rw [if_neg hlen, sortedKeys_subscribeValues]
  simp only [encodeKeys, i1, i2, i3, i4, i5, e1, e2, e3, e4, e5]
  rw [encodeKey_one_nil, encodeKey_one (lit "hub.mode") _ _ (by simp),
    encodeKey_one (lit "hub.topic") _ _ (by simp),
    encodeKey_one (lit "hub.verify") _ _ (by simp),
    encodeKey_one (lit "hub.verify_token") _ _ (by simp), e6, e7]
  simp only [List.append_assoc]
  rfl

theorem QueryUnescape_percent (h1 h2 : Byte) (rest : GoString)
    (hh1 : ishex h1 = true) (hh2 : ishex h2 = true) :
    QueryUnescape ((37 : Byte) :: h1 :: h2 :: rest) =
      (QueryUnescape rest).map
        (fun t => (⟨(unhex h1 * 16 + unhex h2) % 256, Nat.mod_lt _ (by decide)⟩ : Byte) :: t) := by
  have h37 : ((37 : Byte).val = 37) := rfl
  rw [QueryUnescape, if_pos h37]
  simp [hh1, hh2]

theorem QueryUnescape_plus (rest : GoString) :
    QueryUnescape ((43 : Byte) :: rest) = (QueryUnescape rest).map (fun t => (32 : Byte) :: t) := by
  have h37 : ¬ ((43 : Byte).val = 37) := by decide
  have h43 : ((43 : Byte).val = 43) := rfl
  rw [QueryUnescape.eq_def]
  simp only [if_neg h37, if_pos h43]

theorem QueryUnescape_plain (c : Byte) (rest : GoString) (h37 : c.val ≠ 37) (h43 : c.val ≠ 43) :
    QueryUnescape (c :: rest) = (QueryUnescape rest).map (fun t => c :: t) := by
  rw [QueryUnescape.eq_def]
  simp only [if_neg h37, if_neg h43]

theorem QueryUnescape_QueryEscape (s : GoString) : QueryUnescape (QueryEscape s) = some s := by
  induction s with
  | nil => rfl
  | cons c rest ih =>
    unfold QueryEscape
    by_cases hesc : shouldEscape c = true
    · rw [if_pos hesc]
      by_cases hsp : c.val = 32
      · have hc : c = (32 : Byte) := Fin.ext hsp
        rw [if_pos hsp, QueryUnescape_plus, ih, hc]
        rfl
      · have hx := hex_roundtrip c
        rw [if_neg hsp, QueryUnescape_percent _ _ _ hx.1 hx.2.1, ih, hx.2.2]
        rfl
    · have hp := unescaped_plain c (by simpa using hesc)
      rw [if_neg hesc, QueryUnescape_plain c _ hp.1 hp.2.1, ih]
      rfl

theorem QueryEscape_no_sep (s : GoString) :
    ∀ b ∈ QueryEscape s, b ≠ 38 ∧ b ≠ 59 ∧ b ≠ 61 := by
  induction s with
  | nil => simp [QueryEscape]
  | cons c rest ih =>
    unfold QueryEscape
    by_cases hesc : shouldEscape c = true
    · rw [if_pos hesc]
      by_cases hsp : c.val = 32
      · rw [if_pos hsp]
        intro b hb
        rcases List.mem_cons.mp hb with h | h
        · subst h; decide
        · exact ih b h
      · rw [if_neg hsp]
        have hu := upperhex_plain c
        intro b hb
        rcases List.mem_cons.mp hb with h | h
        · subst h; decide
        · rcases List.mem_cons.mp h with h | h
          · subst h; exact hu.1
          · rcases List.mem_cons.mp h with h | h
            · subst h; exact hu.2
            · exact ih b h
    · rw [if_neg hesc]
      have hp := unescaped_plain c (by simpa using hesc)
      intro b hb
      rcases List.mem_cons.mp hb with h | h
      · subst h; exact hp.2.2
      · exact ih b h

theorem QueryEscape_eq_nil (s : GoString) (h : QueryEscape s = []) : s = [] := by
  cases s with
  | nil => rfl
  | cons c rest =>
    unfold QueryEscape at h
    split at h
    · split at h <;> simp at h
    · simp at h

theorem cut_append_sep (sep : Byte) (a b : GoString) (h : sep ∉ a) :
    cut sep (a ++ sep :: b) = (a, b, true) := by
  induction a with
  | nil => simp [cut]
  | cons c rest ih =>
    have hne : c ≠ sep := fun hc => h (by simp [hc])
    have hrest : sep ∉ rest := fun hc => h (by simp [hc])
    simp [cut, hne, ih hrest]

theorem cut_no_sep (sep : Byte) (a : GoString) (h : sep ∉ a) :
    cut sep a = (a, [], false) := by
  induction a with
  | nil => simp [cut]
  | cons c rest ih =>
    have hne : c ≠ sep := fun hc => h (by simp [hc])
    have hrest : sep ∉ rest := fun hc => h (by simp [hc])
    simp [cut, hne, ih hrest]

theorem parseQueryLoop_nil (fuel : Nat) (m : Values) (err : Bool) :
    parseQueryLoop fuel m err [] = some (m, err) := by
  cases fuel <;> rfl

theorem parseQueryLoop_field (fuel : Nat) (m : Values) (err : Bool) (k v rest : GoString)
    (hk : k ≠ [])
    (hcut : cut (38 : Byte) (QueryEscape k ++ (61 : Byte) :: QueryEscape v ++ rest) =
      (QueryEscape k ++ (61 : Byte) :: QueryEscape v, rest.tail, !rest.isEmpty)) :
    parseQueryLoop (fuel + 1) m err (QueryEscape k ++ (61 : Byte) :: QueryEscape v ++ rest) =
      parseQueryLoop fuel (m.Add k v) err rest.tail := by
  have hsemi : (59 : Byte) ∉ QueryEscape k ++ (61 : Byte) :: QueryEscape v := by
    intro hmem
    rcases List.mem_append.mp hmem with h | h
    · exact (QueryEscape_no_sep k _ h).2.1 rfl
    · rcases List.mem_cons.mp h with h | h
      · exact absurd h (by decide)
      · exact (QueryEscape_no_sep v _ h).2.1 rfl
  have heq : (61 : Byte) ∉ QueryEscape k := fun h => (QueryEscape_no_sep k _ h).2.2 rfl
  have hkv : cut (61 : Byte) (QueryEscape k ++ (61 : Byte) :: QueryEscape v) =
      (QueryEscape k, QueryEscape v, true) := cut_append_sep _ _ _ heq
  have hne : QueryEscape k ++ (61 : Byte) :: QueryEscape v ≠ [] := by simp
  obtain ⟨c, q, hcq⟩ : ∃ c q, QueryEscape k ++ (61 : Byte) :: QueryEscape v ++ rest = c :: q := by
    cases hq : QueryEscape k with
    | nil => exact absurd (QueryEscape_eq_nil k hq) hk
    | cons c q => exact ⟨c, (q ++ (61 : Byte) :: QueryEscape v) ++ rest, by simp⟩
  rw [hcq] at hcut ⊢
  simp only [parseQueryLoop, hcut, if_neg hsemi, if_neg hne, hkv, QueryUnescape_QueryEscape]

theorem amp_not_mem_field (k v : GoString) :
    (38 : Byte) ∉ QueryEscape k ++ (61 : Byte) :: QueryEscape v := by
  intro hmem
  rcases List.mem_append.mp hmem with h | h
  · exact (QueryEscape_no_sep k _ h).1 rfl
  · rcases List.mem_cons.mp h with h | h
    · exact absurd h (by decide)
    · exact (QueryEscape_no_sep v _ h).1 rfl

theorem parseQueryLoop_encodePairs (pairs : List (GoString × GoString)) :
    ∀ (fuel : Nat) (m : Values) (err : Bool), (∀ p ∈ pairs, p.1 ≠ []) → pairs.length ≤ fuel →
      parseQueryLoop fuel m err (encodePairs pairs) =
        some (pairs.foldl (fun acc p => Values.Add acc p.1 p.2) m, err) := by
  induction pairs with
  | nil =>
    intro fuel m err _ _
    simp [encodePairs, parseQueryLoop_nil]
  | cons p ps ih =>
    intro fuel m err hkeys hfuel
    have hp : p.1 ≠ [] := hkeys p (by simp)
    obtain ⟨f, rfl⟩ : ∃ f, fuel = f + 1 := ⟨fuel - 1, by simp at hfuel; omega⟩
    cases ps with
    | nil =>
      have h := parseQueryLoop_field f m err p.1 p.2 [] hp
        (by simpa using cut_no_sep _ _ (amp_not_mem_field p.1 p.2))
      simp only [List.append_nil, List.tail_nil] at h
      simp [encodePairs, h, parseQueryLoop_nil]
    | cons q rest =>
      have h := parseQueryLoop_field f m err p.1 p.2 ((38 : Byte) :: encodePairs (q :: rest)) hp
        (by simpa using cut_append_sep _ _ (encodePairs (q :: rest)) (amp_not_mem_field p.1 p.2))
      have hrec := ih f (Values.Add m p.1 p.2) err (fun x hx => hkeys x (by simp [hx]))
        (by simp at hfuel ⊢; omega)
      simp only [List.tail_cons] at h
      simp only [encodePairs, List.foldl_cons]
      rw [h, hrec]
      rfl

theorem subscribe_body_pairs (callback topic verifyToken : GoString) :
    (subscribeValues callback topic verifyToken).Encode =
      encodePairs [(lit "hub.callback", callback), (lit "hub.mode", lit "subscribe"),
        (lit "hub.topic", topic), (lit "hub.verify", lit "async"),
        (lit "hub.verify_token", verifyToken)] := by
  rw [subscribe_body_eq]
  simp only [encodePairs, List.append_assoc]
  rfl

theorem ParseQuery_subscribe_body (callback topic verifyToken : GoString) :
    ParseQuery (subscribeRequest callback topic verifyToken).body =
      some ([(lit "hub.callback", [callback]), (lit "hub.mode", [lit "subscribe"]),
        (lit "hub.topic", [topic]), (lit "hub.verify", [lit "async"]),
        (lit "hub.verify_token", [verifyToken])], false) := by
  have hlen : 5 ≤ (subscribeRequest callback topic verifyToken).body.length := by
    have h13 : (lit "hub.callback=").length = 13 := rfl
    simp only [subscribeRequest, subscribe_body_eq, List.length_append, h13]
    omega
  have hcount : urlParamsWithinMax
      ((subscribeRequest callback topic verifyToken).body.count (38 : Byte) + 1) = true := by
    have hz : ∀ s : GoString, (QueryEscape s).count (38 : Byte) = 0 := fun s =>
      List.count_eq_zero_of_not_mem (fun h => (QueryEscape_no_sep s _ h).1 rfl)
    have c1 : (lit "hub.callback=").count (38 : Byte) = 0 := by decide
    have c2 : (lit "&hub.mode=subscribe&hub.topic=").count (38 : Byte) = 2 := by decide
    have c3 : (lit "&hub.verify=async&hub.verify_token=").count (38 : Byte) = 2 := by decide
    simp only [subscribeRequest, subscribe_body_eq, List.count_append, hz, c1, c2, c3]
    decide
  unfold ParseQuery
  rw [if_pos hcount]
  rw [show (subscribeRequest callback topic verifyToken).body =
    (subscribeValues callback topic verifyToken).Encode from rfl] at hlen ⊢
  rw [subscribe_body_pairs] at hlen ⊢
  rw [parseQueryLoop_encodePairs _ _ _ _ (by
    intro p hp
    simp only [List.mem_cons, List.mem_singleton, List.not_mem_nil, or_false] at hp
    rcases hp with h | h | h | h | h <;> subst h <;> simp only [ne_eq] <;> decide) (by simpa using hlen)]
  rfl

theorem subscribeValues_index (callback topic verifyToken key : GoString) :
    (subscribeValues callback topic verifyToken).index key =
      if lit "hub.mode" = key then [lit "subscribe"]
      else if lit "hub.topic" = key then [topic]
      else if lit "hub.callback" = key then [callback]
      else if lit "hub.verify" = key then [lit "async"]
      else if lit "hub.verify_token" = key then [verifyToken]
      else [] := by
  rfl

theorem parsed_index (callback topic verifyToken key : GoString) :
    Values.index [(lit "hub.callback", [callback]), (lit "hub.mode", [lit "subscribe"]),
        (lit "hub.topic", [topic]), (lit "hub.verify", [lit "async"]),
        (lit "hub.verify_token", [verifyToken])] key =
      (subscribeValues callback topic verifyToken).index key := by
  rw [subscribeValues_index]
  simp only [Values.index]
  have d1 : lit "hub.callback" ≠ lit "hub.mode" := by decide
  have d2 : lit "hub.callback" ≠ lit "hub.topic" := by decide
  by_cases h1 : lit "hub.callback" = key
  · subst h1
    simp [d1.symm, d2.symm]
  · simp [h1]

theorem lit_GET_ne_POST : lit "POST" ≠ lit "GET" := by decide

/-! ## The `/websub` handler -/

/-- C1: a GET request whose `hub.verify_token` is empty or equal to the
configured token is answered with status 200 and a body that is exactly the
bytes of the `hub.challenge` value. -/
theorem websub_get_echoes_challenge (verifyToken : GoString) (r : Request) (c : GoString)
    (hm : r.method = lit "GET")
    (hc : r.Query.Get (lit "hub.challenge") = c)
    (hvt : r.Query.Get (lit "hub.verify_token") = [] ∨
      r.Query.Get (lit "hub.verify_token") = verifyToken) :
    ∃ h, handler verifyToken r = some h ∧ h.w.sentStatus = 200 ∧ h.w.body = c := by
  have hno : ¬ (r.Query.Get (lit "hub.verify_token") ≠ [] ∧
      r.Query.Get (lit "hub.verify_token") ≠ verifyToken) := by
    rcases hvt with h | h <;> simp [h]
  simp only [handler, hm, if_true, if_neg hno, Option.some.injEq, exists_eq_left']
  simp [ResponseWriter.sentStatus, ResponseWriter.Write, ResponseWriter.SetHeader,
    ResponseWriter.WriteHeader, ResponseWriter.fresh, bodyAllowedForStatus, hc]

theorem websub_get_echoes_challenge_witness :
    ∃ h, handler (lit "devtoken") scenarioVerify = some h ∧ h.w.sentStatus = 200 ∧
      h.w.body = lit "abc123" :=
  websub_get_echoes_challenge (lit "devtoken") scenarioVerify (lit "abc123")
    (by decide) (by decide) (Or.inr (by decide))

/-- C2 as stated fails: with the configured token `devtoken`, the supplied
token `wrong` and a challenge that decodes to the text of the 403 reply, the
status is 403 and the body is equal to the challenge. -/
theorem websub_forbidden_body_can_equal_challenge :
    scenarioCollidingChallenge.method = lit "GET" ∧
    scenarioCollidingChallenge.Query.Get (lit "hub.verify_token") ≠ [] ∧
    scenarioCollidingChallenge.Query.Get (lit "hub.verify_token") ≠ lit "devtoken" ∧
    (handler (lit "devtoken") scenarioCollidingChallenge).map
        (fun h => (h.w.sentStatus, h.w.body)) =
      some (403, scenarioCollidingChallenge.Query.Get (lit "hub.challenge")) := by
  decide

/-- C2, amended: a GET request whose `hub.verify_token` is non-empty and
different from the configured token is answered with status 403 and the fixed
body `bad verify_token` followed by a newline, whatever the challenge is; the
body therefore differs from the challenge exactly when the challenge is not
that text. -/
theorem websub_get_mismatch_forbidden (verifyToken : GoString) (r : Request)
    (hm : r.method = lit "GET")
    (hne : r.Query.Get (lit "hub.verify_token") ≠ [])
    (hneq : r.Query.Get (lit "hub.verify_token") ≠ verifyToken) :
    ∃ h, handler verifyToken r = some h ∧ h.w.sentStatus = 403 ∧
      h.w.body = lit "bad verify_token\n" ∧
      (h.w.body ≠ r.Query.Get (lit "hub.challenge") ↔
        r.Query.Get (lit "hub.challenge") ≠ lit "bad verify_token\n") := by
  have hyes : r.Query.Get (lit "hub.verify_token") ≠ [] ∧
      r.Query.Get (lit "hub.verify_token") ≠ verifyToken := ⟨hne, hneq⟩
  have hbody : lit "bad verify_token" ++ [(10 : Byte)] = lit "bad verify_token\n" := by decide
  simp only [handler, hm, if_true, if_pos hyes, Option.some.injEq, exists_eq_left']
  simp only [httpError, ResponseWriter.sentStatus, ResponseWriter.Write,
    ResponseWriter.SetHeader, ResponseWriter.DelHeader, ResponseWriter.WriteHeader,
    ResponseWriter.fresh, bodyAllowedForStatus, hbody]
  refine ⟨by simp, by simp, ?_⟩
  simp only [Option.getD_some]
  constructor
  · intro h1 h2
    exact h1 (by simp [h2])
  · intro h1 h2
    exact h1 (by simpa using h2.symm)

theorem websub_get_mismatch_forbidden_witness :
    ∃ h, handler (lit "devtoken") scenarioWrongToken = some h ∧ h.w.sentStatus = 403 ∧
      h.w.body = lit "bad verify_token\n" ∧
      (h.w.body ≠ scenarioWrongToken.Query.Get (lit "hub.challenge") ↔
        scenarioWrongToken.Query.Get (lit "hub.challenge") ≠ lit "bad verify_token\n") :=
  websub_get_mismatch_forbidden (lit "devtoken") scenarioWrongToken
    (by decide) (by decide) (by decide)

theorem snippetBound_le (body : GoString) : snippetBound body ≤ body.length := by
  simp only [snippetBound]
  split <;> omega

theorem snippetBound_eq_min (body : GoString) : snippetBound body = min body.length 1024 := by
  simp only [snippetBound]
  split <;> omega

/-- C3: a POST request is answered with status 204 and an empty body,
whatever its body bytes and content type are and whether or not reading the
body failed. -/
theorem websub_post_no_content (verifyToken : GoString) (r : Request)
    (hm : r.method = lit "POST") :
    ∃ h, handler verifyToken r = some h ∧ h.w.sentStatus = 204 ∧ h.w.body = [] := by
  simp only [handler, hm, if_neg lit_GET_ne_POST, if_true, sliceTo, if_pos (snippetBound_le r.body),
    Option.some.injEq, exists_eq_left']
  simp [ResponseWriter.sentStatus, ResponseWriter.WriteHeader, ResponseWriter.fresh]

theorem websub_post_no_content_witness :
    ∃ h, handler (lit "devtoken") scenarioNotify = some h ∧ h.w.sentStatus = 204 ∧
      h.w.body = [] :=
  websub_post_no_content (lit "devtoken") scenarioNotify (by decide)

/-- C4: a request whose method is neither GET nor POST is answered with
status 405, whatever its query parameters and body are. -/
theorem websub_other_method_not_allowed (verifyToken : GoString) (r : Request)
    (hget : r.method ≠ lit "GET") (hpost : r.method ≠ lit "POST") :
    ∃ h, handler verifyToken r = some h ∧ h.w.sentStatus = 405 := by
  simp only [handler, if_neg hget, if_neg hpost, Option.some.injEq, exists_eq_left']
  simp [httpError, ResponseWriter.sentStatus, ResponseWriter.Write,
    ResponseWriter.SetHeader, ResponseWriter.DelHeader, ResponseWriter.WriteHeader,
    ResponseWriter.fresh, bodyAllowedForStatus]

theorem websub_other_method_not_allowed_witness :
    ∃ h, handler (lit "devtoken") scenarioDelete = some h ∧ h.w.sentStatus = 405 :=
  websub_other_method_not_allowed (lit "devtoken") scenarioDelete (by decide) (by decide)

/-- C9: for a POST body of length `n` the logged snippet is the first
`min n 1024` bytes of the body: the slice bound is `min n 1024`, it never
exceeds `n` so the slice expression does not panic, the snippet is an initial
segment of the body of that length, it is the whole body when `n ≤ 1024`, and
it is what the handler's last log message carries. -/
theorem websub_post_snippet (verifyToken : GoString) (r : Request)
    (hm : r.method = lit "POST") :
    snippetBound r.body = min r.body.length 1024 ∧
    snippetBound r.body ≤ r.body.length ∧
    ∃ snippet, sliceTo r.body (snippetBound r.body) = some snippet ∧
      snippet = r.body.take (min r.body.length 1024) ∧
      snippet <+: r.body ∧
      snippet.length = min r.body.length 1024 ∧
      (r.body.length ≤ 1024 → snippet = r.body) ∧
      ∃ h, handler verifyToken r = some h ∧
        h.logs.getLast? = some (lit "[NOTIFY] snippet:\n" ++ snippet) := by
  refine ⟨snippetBound_eq_min _, snippetBound_le _, r.body.take (min r.body.length 1024), ?_, rfl,
    List.take_prefix _ _, ?_, ?_, ?_⟩
  · simp [sliceTo, snippetBound_le, snippetBound_eq_min]
  · simp
  · intro h
    simp [Nat.min_eq_left h]
  · simp only [handler, hm, if_neg lit_GET_ne_POST, if_true, sliceTo,
      if_pos (snippetBound_le r.body), Option.some.injEq, exists_eq_left']
    simp [snippetBound_eq_min]

theorem websub_post_snippet_witness :
    snippetBound scenarioNotify.body = min scenarioNotify.body.length 1024 ∧
    snippetBound scenarioNotify.body ≤ scenarioNotify.body.length ∧
    ∃ snippet, sliceTo scenarioNotify.body (snippetBound scenarioNotify.body) = some snippet ∧
      snippet = scenarioNotify.body.take (min scenarioNotify.body.length 1024) ∧
      snippet <+: scenarioNotify.body ∧
      snippet.length = min scenarioNotify.body.length 1024 ∧
      (scenarioNotify.body.length ≤ 1024 → snippet = scenarioNotify.body) ∧
      ∃ h, handler (lit "devtoken") scenarioNotify = some h ∧
        h.logs.getLast? = some (lit "[NOTIFY] snippet:\n" ++ snippet) :=
  websub_post_snippet (lit "devtoken") scenarioNotify (by decide)

/-- The spec scenario of a 2000-byte body: the snippet is its first 1024 bytes. -/
theorem snippet_of_2000_bytes :
    sliceTo (List.replicate 2000 (60 : Byte)) (snippetBound (List.replicate 2000 (60 : Byte))) =
      some (List.replicate 1024 (60 : Byte)) := by
  have hlen : (List.replicate 2000 (60 : Byte)).length = 2000 := List.length_replicate _ _
  simp only [sliceTo, snippetBound, hlen, List.take_replicate]
  norm_num

/-! ## `subscribe`: the returned error -/

/-- C5: `subscribe` returns the transport error itself when the transport
failed, an error with message `hub subscribe status <s>: <b>` (which contains
the decimal status and ends with the body text) when the response status `s`
is at least 300, and no error when the status is below 300; so it returns an
error if and only if the transport failed or the status is at least 300. -/
theorem subscribe_error_iff (doRequest : OutRequest → HubOutcome)
    (callback topic verifyToken : GoString) :
    (∀ err, doRequest (subscribeRequest callback topic verifyToken)
        = HubOutcome.transportError err →
      subscribe doRequest callback topic verifyToken = some err) ∧
    (∀ s b readErr, doRequest (subscribeRequest callback topic verifyToken)
        = HubOutcome.response s b readErr → 300 ≤ s →
      ∃ e, subscribe doRequest callback topic verifyToken = some e ∧
        e.msg = lit "hub subscribe status " ++ fmtInt s ++ lit ": " ++ b ∧
        fmtInt s <:+: e.msg ∧ b <:+ e.msg) ∧
    (∀ s b readErr, doRequest (subscribeRequest callback topic verifyToken)
        = HubOutcome.response s b readErr → s < 300 →
      subscribe doRequest callback topic verifyToken = none) ∧
    ((subscribe doRequest callback topic verifyToken).isSome = true ↔
      (∃ err, doRequest (subscribeRequest callback topic verifyToken)
        = HubOutcome.transportError err) ∨
      (∃ s b readErr, doRequest (subscribeRequest callback topic verifyToken)
        = HubOutcome.response s b readErr ∧ 300 ≤ s)) := by
  refine ⟨?_, ?_, ?_, ?_⟩
  · intro err h
    simp [subscribe, h]
  · intro s b readErr h hs
    refine ⟨⟨lit "hub subscribe status " ++ fmtInt s ++ lit ": " ++ b⟩, ?_, rfl, ?_, ?_⟩
    · simp [subscribe, h, hs]
    · exact ⟨lit "hub subscribe status ", lit ": " ++ b, by simp⟩
    · exact ⟨lit "hub subscribe status " ++ fmtInt s ++ lit ": ", by simp⟩
  · intro s b readErr h hs
    have : ¬ (300 ≤ s) := by omega
    simp [subscribe, h, this]
  · cases h : doRequest (subscribeRequest callback topic verifyToken) with
    | transportError err => simp [subscribe, h]
    | response s b readErr =>
      by_cases hs : 300 ≤ s
      · simp [subscribe, h, hs]
      · simp [subscribe, h, hs]

theorem subscribe_error_iff_witness :
    ∃ e, subscribe hubMoved (lit "https://x.example/websub") (lit "T") (lit "devtoken") = some e ∧
      e.msg = lit "hub subscribe status 302: moved" := by
  obtain ⟨e, h1, h2, _⟩ := (subscribe_error_iff hubMoved (lit "https://x.example/websub")
    (lit "T") (lit "devtoken")).2.1 302 (lit "moved") none rfl (by decide)
  exact ⟨e, h1, h2.trans (by decide)⟩

/-! ## `subscribe`: the request -/

set_option maxRecDepth 1000000 in
/-- C6 as stated fails: for callback `c`, topic `t` and token `v` the body
`subscribe` sends starts with the `hub.callback` field, not with `hub.mode`,
so it is not the body the claim writes; and for a callback and topic that are
URLs the values arrive percent-encoded. -/
theorem subscribe_body_differs_from_spec :
    (subscribeRequest (lit "c") (lit "t") (lit "v")).body =
      lit "hub.callback=c&hub.mode=subscribe&hub.topic=t&hub.verify=async&hub.verify_token=v" ∧
    specFormBody (lit "c") (lit "t") (lit "v") =
      lit "hub.mode=subscribe&hub.topic=t&hub.callback=c&hub.verify=async&hub.verify_token=v" ∧
    (subscribeRequest (lit "c") (lit "t") (lit "v")).body ≠
      specFormBody (lit "c") (lit "t") (lit "v") ∧
    (subscribeRequest (lit "https://x.example/websub")
        (lit "https://www.youtube.com/feeds/videos.xml?channel_id=UC123") (lit "devtoken")).body =
      lit "hub.callback=https%3A%2F%2Fx.example%2Fwebsub&hub.mode=subscribe&hub.topic=https%3A%2F%2Fwww.youtube.com%2Ffeeds%2Fvideos.xml%3Fchannel_id%3DUC123&hub.verify=async&hub.verify_token=devtoken" := by
  decide

theorem QueryEscape_of_unreserved (s : GoString) (h : ∀ b ∈ s, shouldEscape b = false) :
    QueryEscape s = s := by
  induction s with
  | nil => rfl
  | cons c rest ih =>
    have hc : shouldEscape c = false := h c (by simp)
    have hrest : ∀ b ∈ rest, shouldEscape b = false := fun b hb => h b (by simp [hb])
    simp [QueryEscape, hc, ih hrest]

/-- C6, amended: for every callback, topic and verify token, the request
`subscribe` sends is a POST to `https://pubsubhubbub.appspot.com/subscribe`
whose form body is
`hub.callback=<callback>&hub.mode=subscribe&hub.topic=<topic>&hub.verify=async&hub.verify_token=<token>`:
the five fields in ascending order of their keys, carrying the given callback,
topic and token as query-escaped values. -/
theorem subscribe_request_shape (callback topic verifyToken : GoString) :
    (subscribeRequest callback topic verifyToken).method = lit "POST" ∧
    (subscribeRequest callback topic verifyToken).url =
      lit "https://pubsubhubbub.appspot.com/subscribe" ∧
    (subscribeRequest callback topic verifyToken).body =
      lit "hub.callback=" ++ QueryEscape callback ++ lit "&hub.mode=subscribe&hub.topic="
        ++ QueryEscape topic ++ lit "&hub.verify=async&hub.verify_token="
        ++ QueryEscape verifyToken := by
  have hurl : hubURL ++ lit "subscribe" = lit "https://pubsubhubbub.appspot.com/subscribe" := by
    decide
  exact ⟨rfl, hurl, subscribe_body_eq callback topic verifyToken⟩

/-- C7: the form values `subscribe` encodes are exactly the five pairs
`hub.mode=subscribe`, `hub.topic=topic`, `hub.callback=callback`,
`hub.verify=async` and `hub.verify_token=verifyToken`: each of the five keys
carries exactly one value, every other key carries none, and parsing the
encoded body succeeds without error and yields the same five fields, so the
topic, callback and token that were passed in are read back. -/
theorem subscribe_form_fields (callback topic verifyToken : GoString) :
    (∀ key, (subscribeValues callback topic verifyToken).index key =
      if lit "hub.mode" = key then [lit "subscribe"]
      else if lit "hub.topic" = key then [topic]
      else if lit "hub.callback" = key then [callback]
      else if lit "hub.verify" = key then [lit "async"]
      else if lit "hub.verify_token" = key then [verifyToken]
      else []) ∧
    ((subscribeValues callback topic verifyToken).map Prod.fst).Nodup ∧
    (subscribeValues callback topic verifyToken).length = 5 ∧
    ∃ m : Values, ParseQuery (subscribeRequest callback topic verifyToken).body = some (m, false) ∧
      m.length = 5 ∧
      (∀ key, m.index key = (subscribeValues callback topic verifyToken).index key) ∧
      m.Get (lit "hub.mode") = lit "subscribe" ∧
      m.Get (lit "hub.topic") = topic ∧
      m.Get (lit "hub.callback") = callback ∧
      m.Get (lit "hub.verify") = lit "async" ∧
      m.Get (lit "hub.verify_token") = verifyToken := by
  have hkeys : (subscribeValues callback topic verifyToken).map Prod.fst =
      [lit "hub.mode", lit "hub.topic", lit "hub.callback", lit "hub.verify",
       lit "hub.verify_token"] := rfl
  refine ⟨subscribeValues_index callback topic verifyToken, ?_, rfl, ?_⟩
  · rw [hkeys]
    decide
  · exact ⟨_, ParseQuery_subscribe_body callback topic verifyToken, rfl,
      parsed_index callback topic verifyToken, rfl, rfl, rfl, rfl, rfl⟩

/-! ## Configuration -/

theorem mustEnv_ok_iff (environ : Environ) (key : GoString) :
    (∃ v, mustEnv environ key = Except.ok v) ↔ Getenv environ key ≠ [] := by
  unfold mustEnv
  by_cases h : Getenv environ key = [] <;> simp [h]

theorem main_of_missing (environ : Environ) (listenResult : Option GoError)
    (h : Getenv environ (lit "PUBLIC_BASE_URL") = [] ∨
      Getenv environ (lit "YOUTUBE_CHANNEL_ID") = []) :
    exitsBeforeServing (main environ listenResult) = true := by
  by_cases h1 : Getenv environ (lit "PUBLIC_BASE_URL") = []
  · simp [main, mustEnv, h1, exitsBeforeServing, MainEvent.serves]
  · have h2 : Getenv environ (lit "YOUTUBE_CHANNEL_ID") = [] := h.resolve_left h1
    simp [main, mustEnv, h1, h2, exitsBeforeServing, MainEvent.serves]

theorem main_of_present (environ : Environ) (listenResult : Option GoError)
    (h1 : Getenv environ (lit "PUBLIC_BASE_URL") ≠ [])
    (h2 : Getenv environ (lit "YOUTUBE_CHANNEL_ID") ≠ []) :
    exitsBeforeServing (main environ listenResult) = false := by
  simp [main, mustEnv, h1, h2, exitsBeforeServing, MainEvent.serves]

theorem env_resolves (environ : Environ) (key dflt : GoString) :
    ((environ key = none ∨ environ key = some []) → env environ key dflt = dflt) ∧
    (∀ v, environ key = some v → v ≠ [] → env environ key dflt = v) := by
  constructor
  · intro h
    rcases h with h | h <;> simp [env, Getenv, h]
  · intro v h hv
    simp [env, Getenv, h, hv]

/-- C8: `env` returns the variable's value when it is set and non-empty and
the default otherwise (so `PORT` resolves to `8080` and `VERIFY_TOKEN` to
`devtoken` when unset); `mustEnv` returns the value when it is non-empty and
otherwise ends the process with a fatal log; and `main` exits fatally before
registering the handler or binding the listener if and only if
`PUBLIC_BASE_URL` or `YOUTUBE_CHANNEL_ID` is unset or empty: in that case its
only effect is the fatal log naming the first missing variable, and otherwise
it registers `/websub` with the resolved verify token, starts the renewer with
the callback `PUBLIC_BASE_URL` followed by `/websub`, the channel id and the
resolved verify token, and listens on the resolved port, where the port is
`PORT` or else `8080` and the verify token is `VERIFY_TOKEN` or else
`devtoken`. -/
theorem config_resolution (environ : Environ) (listenResult : Option GoError) :
    (∀ key dflt v, environ key = some v → v ≠ [] → env environ key dflt = v) ∧
    (∀ key dflt, environ key = none ∨ environ key = some [] → env environ key dflt = dflt) ∧
    (environ (lit "PORT") = none → env environ (lit "PORT") (lit "8080") = lit "8080") ∧
    (environ (lit "VERIFY_TOKEN") = none →
      env environ (lit "VERIFY_TOKEN") (lit "devtoken") = lit "devtoken") ∧
    (∀ key v, environ key = some v → v ≠ [] → mustEnv environ key = Except.ok v) ∧
    (∀ key, environ key = none ∨ environ key = some [] →
      mustEnv environ key = Except.error (lit "missing required env " ++ key)) ∧
    (exitsBeforeServing (main environ listenResult) = true ↔
      (environ (lit "PUBLIC_BASE_URL") = none ∨ environ (lit "PUBLIC_BASE_URL") = some []) ∨
      (environ (lit "YOUTUBE_CHANNEL_ID") = none ∨
        environ (lit "YOUTUBE_CHANNEL_ID") = some [])) ∧
    ((environ (lit "PUBLIC_BASE_URL") = none ∨ environ (lit "PUBLIC_BASE_URL") = some []) →
      main environ listenResult =
        [MainEvent.fatal (lit "missing required env PUBLIC_BASE_URL")]) ∧
    (∀ base, environ (lit "PUBLIC_BASE_URL") = some base → base ≠ [] →
      (environ (lit "YOUTUBE_CHANNEL_ID") = none ∨
        environ (lit "YOUTUBE_CHANNEL_ID") = some []) →
      main environ listenResult =
        [MainEvent.fatal (lit "missing required env YOUTUBE_CHANNEL_ID")]) ∧
    (∀ base channelID, environ (lit "PUBLIC_BASE_URL") = some base → base ≠ [] →
      environ (lit "YOUTUBE_CHANNEL_ID") = some channelID → channelID ≠ [] →
      ∃ port verifyToken,
        ((environ (lit "PORT") = none ∨ environ (lit "PORT") = some []) → port = lit "8080") ∧
        (∀ v, environ (lit "PORT") = some v → v ≠ [] → port = v) ∧
        ((environ (lit "VERIFY_TOKEN") = none ∨ environ (lit "VERIFY_TOKEN") = some []) →
          verifyToken = lit "devtoken") ∧
        (∀ v, environ (lit "VERIFY_TOKEN") = some v → v ≠ [] → verifyToken = v) ∧
        main environ listenResult =
          [MainEvent.handleFunc (lit "/websub") verifyToken,
           MainEvent.goRenewer (base ++ lit "/websub") channelID verifyToken,
           MainEvent.logf (lit "listening on :" ++ port),
           MainEvent.listenAndServe (lit ":" ++ port)]
          ++ (match listenResult with
              | some err => [MainEvent.fatal err.msg]
              | none => [])) := by
  have hget : ∀ key, Getenv environ key = [] ↔ (environ key = none ∨ environ key = some []) := by
    intro key
    unfold Getenv
    cases environ key with
    | none => simp
    | some v => simp
  have hgetv : ∀ key v, environ key = some v → Getenv environ key = v := by
    intro key v h
    simp [Getenv, h]
  refine ⟨?_, ?_, ?_, ?_, ?_, ?_, ?_, ?_, ?_, ?_⟩
  · intro key dflt v h hv
    simp [env, Getenv, h, hv]
  · intro key dflt h
    simp [env, (hget key).2 h]
  · intro h
    simp [env, Getenv, h]
  · intro h
    simp [env, Getenv, h]
  · intro key v h hv
    simp [mustEnv, Getenv, h, hv]
  · intro key h
    simp [mustEnv, (hget key).2 h]
  · rw [← hget, ← hget]
    constructor
    · intro h
      by_contra hcon
      push_neg at hcon
      have := main_of_present environ listenResult hcon.1 hcon.2
      rw [this] at h
      exact Bool.false_ne_true h
    · exact main_of_missing environ listenResult
  · intro h
    have hmsg : lit "missing required env " ++ lit "PUBLIC_BASE_URL" =
        lit "missing required env PUBLIC_BASE_URL" := by decide
    simp [main, mustEnv, (hget _).2 h, hmsg]
  · intro base hb hbne h
    have h1 : Getenv environ (lit "PUBLIC_BASE_URL") ≠ [] := by rw [hgetv _ _ hb]; exact hbne
    have hmsg : lit "missing required env " ++ lit "YOUTUBE_CHANNEL_ID" =
        lit "missing required env YOUTUBE_CHANNEL_ID" := by decide
    simp [main, mustEnv, h1, (hget _).2 h, hmsg]
  · intro base channelID hb hbne hc hcne
    have h1 : Getenv environ (lit "PUBLIC_BASE_URL") = base := hgetv _ _ hb
    have h2 : Getenv environ (lit "YOUTUBE_CHANNEL_ID") = channelID := hgetv _ _ hc
    refine ⟨env environ (lit "PORT") (lit "8080"),
      env environ (lit "VERIFY_TOKEN") (lit "devtoken"),
      (env_resolves environ _ _).1, (env_resolves environ _ _).2,
      (env_resolves environ _ _).1, (env_resolves environ _ _).2, ?_⟩
    simp [main, mustEnv, h1, h2, hbne, hcne]

theorem config_resolution_witness :
    main environNoBase (some ⟨lit "bind: address already in use"⟩) =
      [MainEvent.fatal (lit "missing required env PUBLIC_BASE_URL")] ∧
    exitsBeforeServing (main environNoBase (some ⟨lit "bind: address already in use"⟩)) = true ∧
    main environRequiredOnly (some ⟨lit "bind: address already in use"⟩) =
      [MainEvent.handleFunc (lit "/websub") (lit "devtoken"),
       MainEvent.goRenewer (lit "https://x.example/websub") (lit "UC123") (lit "devtoken"),
       MainEvent.logf (lit "listening on :8080"),
       MainEvent.listenAndServe (lit ":8080"),
       MainEvent.fatal (lit "bind: address already in use")] := by
  refine ⟨(config_resolution environNoBase (some ⟨lit "bind: address already in use"⟩)).2.2.2.2.2.2.2.1
      (Or.inl (by decide)),
    (config_resolution environNoBase (some ⟨lit "bind: address already in use"⟩)).2.2.2.2.2.2.1.2
      (Or.inl (Or.inl (by decide))), ?_⟩
  obtain ⟨port, verifyToken, hp, _, hv, _, hmain⟩ :=
    (config_resolution environRequiredOnly
      (some ⟨lit "bind: address already in use"⟩)).2.2.2.2.2.2.2.2.2
      (lit "https://x.example") (lit "UC123") (by decide) (by decide) (by decide) (by decide)
  rw [hmain, hp (Or.inl (by decide)), hv (Or.inl (by decide))]
  decide

/-! ## The renewer loop -/

theorem renewerRun_iterations (callback channelID verifyToken : GoString)
    (hub : Nat → OutRequest → HubOutcome) (n : Nat) :
    (renewerRun callback channelID verifyToken hub n).iterations = n := by
  induction n with
  | zero => rfl
  | succ n ih => simp [renewerRun, renewerStep, ih]

theorem renewerBody_shape (callback topic verifyToken : GoString)
    (doRequest : OutRequest → HubOutcome) :
    ∃ msg, renewerBody callback topic verifyToken doRequest =
      [RenewerEvent.subscribeCall callback topic verifyToken, RenewerEvent.logf msg,
       RenewerEvent.sleep 86400000000000] := by
  unfold renewerBody
  cases subscribe doRequest callback topic verifyToken with
  | none => exact ⟨_, rfl⟩
  | some err => exact ⟨_, rfl⟩

/-- C10: whatever the hub answers in any iteration, the renewer always
reaches a next iteration, and iteration `n` adds to the trace exactly one
`subscribe` call with the callback, the topic
`https://www.youtube.com/feeds/videos.xml?channel_id=` followed by the channel
id, and the verify token, then one log line, then one sleep of 24 hours
(86400000000000 ns); after `n` iterations there were exactly `n` subscribe
calls, and apart from the log lines the trace does not depend on what the
hub answered. -/
theorem renewer_iteration (callback channelID verifyToken : GoString)
    (hub : Nat → OutRequest → HubOutcome) (n : Nat) :
    (renewerRun callback channelID verifyToken hub n).iterations = n ∧
    (renewerRun callback channelID verifyToken hub (n + 1)).iterations = n + 1 ∧
    (∃ msg, (renewerRun callback channelID verifyToken hub (n + 1)).trace =
      (renewerRun callback channelID verifyToken hub n).trace ++
        [RenewerEvent.subscribeCall callback
           (lit "https://www.youtube.com/feeds/videos.xml?channel_id=" ++ channelID) verifyToken,
         RenewerEvent.logf msg,
         RenewerEvent.sleep 86400000000000]) ∧
    (renewerRun callback channelID verifyToken hub n).trace.countP RenewerEvent.isSubscribe = n ∧
    (∀ hub2 : Nat → OutRequest → HubOutcome,
      (renewerRun callback channelID verifyToken hub2 n).trace.filter (fun e => !e.isLog) =
      (renewerRun callback channelID verifyToken hub n).trace.filter (fun e => !e.isLog)) := by
  have hstep : ∀ (h : Nat → OutRequest → HubOutcome) (k : Nat),
      ∃ msg, (renewerRun callback channelID verifyToken h (k + 1)).trace =
        (renewerRun callback channelID verifyToken h k).trace ++
          [RenewerEvent.subscribeCall callback (renewerTopic channelID) verifyToken,
           RenewerEvent.logf msg, RenewerEvent.sleep 86400000000000] := by
    intro h k
    obtain ⟨msg, hmsg⟩ := renewerBody_shape callback (renewerTopic channelID) verifyToken
      (h (renewerRun callback channelID verifyToken h k).iterations)
    exact ⟨msg, by simp [renewerRun, renewerStep, hmsg]⟩
  refine ⟨renewerRun_iterations _ _ _ _ _, renewerRun_iterations _ _ _ _ _, hstep hub n, ?_, ?_⟩
  · induction n with
    | zero => rfl
    | succ k ih =>
      obtain ⟨msg, hmsg⟩ := hstep hub k
      rw [hmsg, List.countP_append, ih]
      simp [List.countP_cons, RenewerEvent.isSubscribe]
  · intro hub2
    induction n with
    | zero => rfl
    | succ k ih =>
      obtain ⟨msg, hmsg⟩ := hstep hub k
      obtain ⟨msg2, hmsg2⟩ := hstep hub2 k
      rw [hmsg, hmsg2, List.filter_append, List.filter_append, ih]
      simp [List.filter_cons, RenewerEvent.isLog]

theorem renewer_iteration_witness :
    (renewerRun (lit "https://x.example/websub") (lit "UC123") (lit "devtoken") hubFailing 2).trace =
      [RenewerEvent.subscribeCall (lit "https://x.example/websub")
         (lit "https://www.youtube.com/feeds/videos.xml?channel_id=UC123") (lit "devtoken"),
       RenewerEvent.logf (lit "subscribe error: dial tcp: connection refused"),
       RenewerEvent.sleep 86400000000000,
       RenewerEvent.subscribeCall (lit "https://x.example/websub")
         (lit "https://www.youtube.com/feeds/videos.xml?channel_id=UC123") (lit "devtoken"),
       RenewerEvent.logf (lit "subscribe error: hub subscribe status 500: oops"),
       RenewerEvent.sleep 86400000000000] ∧
    (renewerRun (lit "https://x.example/websub") (lit "UC123") (lit "devtoken") hubFailing
      2).trace.countP RenewerEvent.isSubscribe = 2 :=
  ⟨by decide,
   (renewer_iteration (lit "https://x.example/websub") (lit "UC123") (lit "devtoken")
     hubFailing 2).2.2.2.1⟩

end WebSub
